import Mathlib

/-
Verification development for the quisp per-node event-driven protocol engine.

Shallow embedding of:
  src/quisp/core/events/RuleEventBus.{h,cc}, ProtocolSpec.h, ExecutionPath.h
  src/quisp/modules/QRSA/RuleEngine/RuleEngine.cc
  src/quisp/modules/QRSA/RuleEngine/RuleProtocolExecutionContext.cc
  src/quisp/modules/QRSA/ConnectionManager/ConnectionManager.h (state shape;
    the .cc implementation is modelled from the specification)
  src/quisp/modules/Backend/ErrorBasisBackend.cc, QutipBackend.cc, IPhysicalBackend.h

Simulation times (omnetpp::simtime_t, an int64 tick count underneath) are
modelled as Int; kernel event numbers (int64_t) as Int.  C++ std::map /
std::unordered_map state accessed only through operator[] with
default-constructed entries is modelled as a total function with the
default value.  Hardware / store side effects are modelled as explicit
action traces.
-/

namespace QuispSpec

/-! ## Core event enums (src/quisp/core/events/RuleEventBus.h, ProtocolSpec.h, ExecutionPath.h) -/

/-- Embeds `enum class RuleEventChannel` (RuleEventBus.h). -/
inductive RuleEventChannel where
  | UNKNOWN
  | EXTERNAL
  | INTERNAL_TIMER
deriving DecidableEq, Repr

/-- Embeds `enum class RuleEventKind` (RuleEventBus.h). -/
inductive RuleEventKind where
  | UNKNOWN
  | BSM_RESULT
  | BSM_TIMING
  | EPPS_TIMING
  | EMIT_PHOTON_REQUEST
  | LINK_TOMOGRAPHY_RULESET
  | MSM_RESULT
  | PURIFICATION_RESULT
  | SINGLE_CLICK_RESULT
  | STOP_EMITTING
  | SWAPPING_RESULT
  | RULESET_FORWARDING
  | RULESET_FORWARDING_APPLICATION
deriving DecidableEq, Repr

/-- Embeds `enum class ProtocolType` (ProtocolSpec.h). -/
inductive ProtocolType where
  | Unknown
  | MIM_v1
  | MSM_v1
  | Purification
  | Swapping
  | LinkTomography
  | ConnectionManagement
  | Maintenance
deriving DecidableEq, Repr

/-- Embeds `enum class ExecutionPath` (ExecutionPath.h). -/
inductive ExecutionPath where
  | Unknown
  | EntanglementLifecycle
  | ConnectionControl
  | Forwarding
  | Maintenance
deriving DecidableEq, Repr

/-- Embeds `PauliOperator` as used by MSM / BSA result messages. -/
inductive PauliOperator where
  | I
  | X
  | Y
  | Z
deriving DecidableEq, Repr

/-- Embeds `protocol_from_int` (ProtocolSpec.h lines 43-49). -/
def protocol_from_int (protocol_hint : Int) : ProtocolType :=
  if 0 ≤ protocol_hint ∧ protocol_hint ≤ 10 then ProtocolType.Purification else ProtocolType.Unknown

/-- Embeds `protocol_from_message_hint` (ProtocolSpec.h lines 51-53). -/
def protocol_from_message_hint (application_type : Int) : ProtocolType :=
  if application_type = 0 then ProtocolType.ConnectionManagement else ProtocolType.Unknown

/-! ## Message types (fields read by the embedded code; classical_messages) -/

/-- Embeds messages::CombinedBSAresults (fields read by RuleEngine.cc). -/
structure CombinedBSAresults where
  qnic_type : Int
  qnic_index : Int
  success_count : Int
  neighbor_address : Int
  successful_photon_indices : List Int
  correction_operation_list : List PauliOperator
deriving DecidableEq, Repr

/-- Embeds messages::BSMTimingNotification (fields read by RuleEngine.cc). -/
structure BSMTimingNotification where
  qnic_type : Int
  qnic_index : Int
  first_photon_emit_time : Int
  interval : Int
deriving DecidableEq, Repr

/-- Embeds messages::EPPSTimingNotification (fields read by RuleEngine.cc). -/
structure EPPSTimingNotification where
  other_qnic_parent_addr : Int
  other_qnic_index : Int
  epps_addr : Int
  qnic_index : Int
  total_travel_time : Int
  first_photon_emit_time : Int
  interval : Int
deriving DecidableEq, Repr

/-- Embeds messages::EmitPhotonRequest (fields read by RuleEventBus.cc and RuleEngine.cc). -/
structure EmitPhotonRequest where
  qnic_type : Int
  qnic_index : Int
  is_msm : Bool
  is_first : Bool
  interval_between_photons : Int
deriving DecidableEq, Repr

/-- Embeds messages::LinkTomographyRuleSet; the bundled RuleSet object is
identified by an opaque serialized representation. -/
structure LinkTomographyRuleSet where
  ruleset : String
deriving DecidableEq, Repr

/-- Embeds messages::MSMResult (fields read by RuleEngine.cc). -/
structure MSMResult where
  qnic_index : Int
  qnic_type : Int
  photon_index : Int
  success : Bool
  correction_operation : PauliOperator
  src_addr : Int
  dest_addr : Int
deriving DecidableEq, Repr

/-- Embeds messages::PurificationResult (fields read by the bus and RuleEngine.cc). -/
structure PurificationResult where
  ruleset_id : Int
  shared_rule_tag : Int
  sequence_number : Int
  measurement_result : Int
  protocol : Int
deriving DecidableEq, Repr

/-- Embeds messages::SingleClickResult (fields read by RuleEngine.cc). -/
structure SingleClickResult where
  qnic_index : Int
  success : Bool
  correction_operation : PauliOperator
deriving DecidableEq, Repr

/-- Embeds messages::StopEmitting (fields read by RuleEngine.cc). -/
structure StopEmitting where
  qnic_address : Int
deriving DecidableEq, Repr

/-- Embeds messages::SwappingResult (fields read by RuleEngine.cc). -/
structure SwappingResult where
  ruleset_id : Int
  shared_rule_tag : Int
  sequence_number : Int
  correction_frame : Int
  new_partner : Int
deriving DecidableEq, Repr

/-- Embeds messages::InternalRuleSetForwarding; the serialized RuleSet JSON is
kept as an opaque string. -/
structure InternalRuleSetForwarding where
  ruleset_id : Int
  ruleset : String
deriving DecidableEq, Repr

/-- Embeds messages::InternalRuleSetForwarding_Application. -/
structure InternalRuleSetForwarding_Application where
  ruleset_id : Int
  ruleset : String
  application_type : Int
deriving DecidableEq, Repr

/-- Dynamic type of a raw omnetpp::cMessage: one constructor per concrete
message class the bus recognizes by dynamic_cast, plus `other` for any
message class outside the built-in table. -/
inductive CMessageBody where
  | combinedBSAresults (m : CombinedBSAresults)
  | bsmTimingNotification (m : BSMTimingNotification)
  | eppsTimingNotification (m : EPPSTimingNotification)
  | emitPhotonRequest (m : EmitPhotonRequest)
  | linkTomographyRuleSet (m : LinkTomographyRuleSet)
  | msmResult (m : MSMResult)
  | purificationResult (m : PurificationResult)
  | singleClickResult (m : SingleClickResult)
  | stopEmitting (m : StopEmitting)
  | swappingResult (m : SwappingResult)
  | internalRuleSetForwarding (m : InternalRuleSetForwarding)
  | internalRuleSetForwardingApplication (m : InternalRuleSetForwarding_Application)
  | other (class_name : String)
deriving DecidableEq, Repr

/-- Embeds the omnetpp::cMessage base state read by the bus:
getFullName(), isSelfMessage(), and the dynamic message type. -/
structure CMessage where
  full_name : String
  is_self_message : Bool
  body : CMessageBody
deriving DecidableEq, Repr

/-- Embeds cMessage::getClassName(): determined by the dynamic type. -/
def CMessage.className (msg : CMessage) : String :=
  match msg.body with
  | .combinedBSAresults _ => "quisp::messages::CombinedBSAresults"
  | .bsmTimingNotification _ => "quisp::messages::BSMTimingNotification"
  | .eppsTimingNotification _ => "quisp::messages::EPPSTimingNotification"
  | .emitPhotonRequest _ => "quisp::messages::EmitPhotonRequest"
  | .linkTomographyRuleSet _ => "quisp::messages::LinkTomographyRuleSet"
  | .msmResult _ => "quisp::messages::MSMResult"
  | .purificationResult _ => "quisp::messages::PurificationResult"
  | .singleClickResult _ => "quisp::messages::SingleClickResult"
  | .stopEmitting _ => "quisp::messages::StopEmitting"
  | .swappingResult _ => "quisp::messages::SwappingResult"
  | .internalRuleSetForwarding _ => "quisp::messages::InternalRuleSetForwarding"
  | .internalRuleSetForwardingApplication _ => "quisp::messages::InternalRuleSetForwarding_Application"
  | .other class_name => class_name

/-- Embeds `RuleEventPayload` (RuleEventBus.h lines 90-94): a tagged variant
over the message types, with monostate for the empty payload. -/
inductive RuleEventPayload where
  | monostate
  | bsmTimingNotification (m : BSMTimingNotification)
  | combinedBSAresults (m : CombinedBSAresults)
  | eppsTimingNotification (m : EPPSTimingNotification)
  | emitPhotonRequest (m : EmitPhotonRequest)
  | internalRuleSetForwarding (m : InternalRuleSetForwarding)
  | internalRuleSetForwardingApplication (m : InternalRuleSetForwarding_Application)
  | linkTomographyRuleSet (m : LinkTomographyRuleSet)
  | msmResult (m : MSMResult)
  | purificationResult (m : PurificationResult)
  | singleClickResult (m : SingleClickResult)
  | stopEmitting (m : StopEmitting)
  | swappingResult (m : SwappingResult)
deriving DecidableEq, Repr

/-- Embeds `struct RuleEvent` (RuleEventBus.h lines 96-108). -/
structure RuleEvent where
  type : RuleEventKind := RuleEventKind.UNKNOWN
  channel : RuleEventChannel := RuleEventChannel.UNKNOWN
  keep_source : Bool := false
  time : Int := 0
  event_number : Int := 0
  protocol_spec : ProtocolType := ProtocolType.Unknown
  execution_path : ExecutionPath := ExecutionPath.Unknown
  protocol_raw_value : String := ""
  payload : RuleEventPayload := RuleEventPayload.monostate
  msg_name : String := ""
  msg_type : String := ""
deriving DecidableEq, Repr

/-! ## RuleEventBus translation (src/quisp/core/events/RuleEventBus.cc) -/

/-- Embeds `executionPathFromType` (RuleEventBus.cc lines 25-30). -/
def executionPathFromType (type : RuleEventKind) : ExecutionPath :=
  if type = RuleEventKind.RULESET_FORWARDING ∨ type = RuleEventKind.RULESET_FORWARDING_APPLICATION then
    ExecutionPath.Forwarding
  else
    ExecutionPath.EntanglementLifecycle

/-- Embeds `protocolFromEmitPhotonRequest` (RuleEventBus.cc lines 32-37). -/
def protocolFromEmitPhotonRequest (msg : Option EmitPhotonRequest) : ProtocolType :=
  match msg with
  | none => ProtocolType.MIM_v1
  | some m => if m.is_msm then ProtocolType.MSM_v1 else ProtocolType.MIM_v1

/-- Embeds the `makeRuleEvent` template (RuleEventBus.cc lines 39-56) for a
non-null message, with the message base state and the event number passed
explicitly (the C++ draws the latter from `getEventNumberOrFallback`). -/
def makeRuleEvent (type : RuleEventKind) (full_name class_name : String)
    (is_self_message : Bool) (payload : RuleEventPayload) (now : Int)
    (keep_source_override : Bool) (protocol_spec : ProtocolType)
    (execution_path : ExecutionPath) (event_number : Int)
    (protocol_raw_value : String) : RuleEvent :=
  let is_internal := is_self_message
  let msg_name := if full_name = "" then class_name else full_name
  { type := type
    channel := if is_internal then RuleEventChannel.INTERNAL_TIMER else RuleEventChannel.EXTERNAL
    keep_source := keep_source_override || is_internal
    time := now
    event_number := event_number
    protocol_spec := protocol_spec
    execution_path := execution_path
    protocol_raw_value := protocol_raw_value
    payload := payload
    msg_name := msg_name
    msg_type := class_name }

/-- Embeds `translateByType` (RuleEventBus.cc lines 58-115): the built-in
dynamic_cast type table.  Returns none exactly when the message class is
outside the table. -/
def translateByType (msg : CMessage) (now : Int) (event_number : Int) : Option RuleEvent :=
  match msg.body with
  | .combinedBSAresults m =>
      some (makeRuleEvent RuleEventKind.BSM_RESULT msg.full_name msg.className msg.is_self_message
        (RuleEventPayload.combinedBSAresults m) now false ProtocolType.MIM_v1
        (executionPathFromType RuleEventKind.BSM_RESULT) event_number "")
  | .bsmTimingNotification m =>
      some (makeRuleEvent RuleEventKind.BSM_TIMING msg.full_name msg.className msg.is_self_message
        (RuleEventPayload.bsmTimingNotification m) now false ProtocolType.MIM_v1
        (executionPathFromType RuleEventKind.BSM_TIMING) event_number "")
  | .eppsTimingNotification m =>
      some (makeRuleEvent RuleEventKind.EPPS_TIMING msg.full_name msg.className msg.is_self_message
        (RuleEventPayload.eppsTimingNotification m) now false ProtocolType.MSM_v1
        (executionPathFromType RuleEventKind.EPPS_TIMING) event_number "")
  | .emitPhotonRequest m =>
      some (makeRuleEvent RuleEventKind.EMIT_PHOTON_REQUEST msg.full_name msg.className msg.is_self_message
        (RuleEventPayload.emitPhotonRequest m) now true (protocolFromEmitPhotonRequest (some m))
        (executionPathFromType RuleEventKind.EMIT_PHOTON_REQUEST) event_number "")
  | .linkTomographyRuleSet m =>
      some (makeRuleEvent RuleEventKind.LINK_TOMOGRAPHY_RULESET msg.full_name msg.className msg.is_self_message
        (RuleEventPayload.linkTomographyRuleSet m) now false ProtocolType.LinkTomography
        (executionPathFromType RuleEventKind.LINK_TOMOGRAPHY_RULESET) event_number "")
  | .msmResult m =>
      some (makeRuleEvent RuleEventKind.MSM_RESULT msg.full_name msg.className msg.is_self_message
        (RuleEventPayload.msmResult m) now false ProtocolType.MSM_v1
        (executionPathFromType RuleEventKind.MSM_RESULT) event_number "")
  | .purificationResult m =>
      let protocol := protocol_from_int m.protocol
      let protocol_raw_value := if protocol = ProtocolType.Unknown then toString m.protocol else ""
      some (makeRuleEvent RuleEventKind.PURIFICATION_RESULT msg.full_name msg.className msg.is_self_message
        (RuleEventPayload.purificationResult m) now false protocol
        (executionPathFromType RuleEventKind.PURIFICATION_RESULT) event_number protocol_raw_value)
  | .singleClickResult m =>
      some (makeRuleEvent RuleEventKind.SINGLE_CLICK_RESULT msg.full_name msg.className msg.is_self_message
        (RuleEventPayload.singleClickResult m) now false ProtocolType.MSM_v1
        (executionPathFromType RuleEventKind.SINGLE_CLICK_RESULT) event_number "")
  | .stopEmitting m =>
      some (makeRuleEvent RuleEventKind.STOP_EMITTING msg.full_name msg.className msg.is_self_message
        (RuleEventPayload.stopEmitting m) now false ProtocolType.MSM_v1
        (executionPathFromType RuleEventKind.STOP_EMITTING) event_number "")
  | .swappingResult m =>
      some (makeRuleEvent RuleEventKind.SWAPPING_RESULT msg.full_name msg.className msg.is_self_message
        (RuleEventPayload.swappingResult m) now false ProtocolType.Swapping
        (executionPathFromType RuleEventKind.SWAPPING_RESULT) event_number "")
  | .internalRuleSetForwarding m =>
      some (makeRuleEvent RuleEventKind.RULESET_FORWARDING msg.full_name msg.className msg.is_self_message
        (RuleEventPayload.internalRuleSetForwarding m) now false ProtocolType.ConnectionManagement
        (executionPathFromType RuleEventKind.RULESET_FORWARDING) event_number "")
  | .internalRuleSetForwardingApplication m =>
      let protocol := protocol_from_message_hint m.application_type
      let protocol_raw_value := if protocol = ProtocolType.Unknown then toString m.application_type else ""
      some (makeRuleEvent RuleEventKind.RULESET_FORWARDING_APPLICATION msg.full_name msg.className msg.is_self_message
        (RuleEventPayload.internalRuleSetForwardingApplication m) now false protocol
        (executionPathFromType RuleEventKind.RULESET_FORWARDING_APPLICATION) event_number protocol_raw_value)
  | .other _ => none

/-- Embeds `makeUnknownRuleEvent` (RuleEventBus.cc lines 132-149). -/
def makeUnknownRuleEvent (msg : Option CMessage) (now : Int) (event_number : Int) : RuleEvent :=
  let type_name := match msg with | none => "omnetpp::cMessage" | some m => m.className
  let full_name := match msg with | none => "null" | some m => m.full_name
  let protocol_raw_value := match msg with | none => "" | some m => m.className
  { type := RuleEventKind.UNKNOWN
    channel :=
      match msg with
      | none => RuleEventChannel.UNKNOWN
      | some m => if m.is_self_message then RuleEventChannel.INTERNAL_TIMER else RuleEventChannel.EXTERNAL
    keep_source := match msg with | none => false | some m => m.is_self_message
    time := now
    event_number := event_number
    protocol_spec := ProtocolType.Unknown
    execution_path := ExecutionPath.Unknown
    protocol_raw_value := protocol_raw_value
    payload := RuleEventPayload.monostate
    msg_name := full_name
    msg_type := type_name }

/-- Type of a registered translator (RuleEventBus.h `RuleEventTranslator`),
with the event number passed explicitly. -/
def RuleEventTranslator : Type :=
  CMessage → Int → Int → Option RuleEvent

/-- Embeds the translator registry lookup (`translators.find(msg->getClassName())`),
the registry being an association list keyed by message class name. -/
def lookupTranslator (translators : List (String × RuleEventTranslator))
    (class_name : String) : Option RuleEventTranslator :=
  (translators.find? fun entry => entry.1 = class_name).map Prod.snd

/-- Embeds `RuleEventBus::toRuleEvent` (RuleEventBus.cc lines 204-218).  A null
message is `none`. -/
def toRuleEvent (translators : List (String × RuleEventTranslator))
    (msg : Option CMessage) (now : Int) (event_number : Int) : RuleEvent :=
  match msg with
  | none => makeUnknownRuleEvent none now event_number
  | some m =>
    match translateByType m now event_number with
    | some translated => translated
    | none =>
      match lookupTranslator translators m.className with
      | some translator =>
        match translator m now event_number with
        | some translated => translated
        | none => makeUnknownRuleEvent (some m) now event_number
      | none => makeUnknownRuleEvent (some m) now event_number

/-- Embeds `RuleEventBus::publish(cMessage*, simtime_t)` followed by
`publish(const RuleEvent&)` (RuleEventBus.cc lines 220-226): the translated
event is appended to the event queue. -/
def publish (translators : List (String × RuleEventTranslator))
    (event_queue : List RuleEvent) (msg : Option CMessage) (now : Int)
    (event_number : Int) : List RuleEvent :=
  event_queue ++ [toRuleEvent translators msg now event_number]

/-! ## RuleEventBus::drain (RuleEventBus.cc lines 228-243) -/

/-- Embeds the strict comparator passed to std::sort in `RuleEventBus::drain`
(RuleEventBus.cc lines 230-235). -/
def eventLess (lhs rhs : RuleEvent) : Bool :=
  if lhs.time ≠ rhs.time then decide (lhs.time < rhs.time)
  else decide (lhs.event_number < rhs.event_number)

/-- Nonstrict order induced by `eventLess`; std::sort guarantees the result is
a permutation that is pairwise nondecreasing in this order. -/
def eventSortLE (lhs rhs : RuleEvent) : Bool :=
  !eventLess rhs lhs

/-- Embeds `RuleEventBus::drain` (RuleEventBus.cc lines 228-243): sort the
queue by (time, event_number), return the prefix with time <= now, keep the
rest queued.  Returns (drained events, remaining queue). -/
def drain (event_queue : List RuleEvent) (now : Int) : List RuleEvent × List RuleEvent :=
  let sorted := event_queue.mergeSort eventSortLE
  (sorted.takeWhile fun e => decide (e.time ≤ now),
   sorted.dropWhile fun e => decide (e.time ≤ now))

/-- Ascending order first by time, then by event_number. -/
def eventKeyLE (lhs rhs : RuleEvent) : Prop :=
  lhs.time < rhs.time ∨ (lhs.time = rhs.time ∧ lhs.event_number ≤ rhs.event_number)

lemma eventSortLE_iff (a b : RuleEvent) : eventSortLE a b = true ↔ eventKeyLE a b := by
  unfold eventSortLE eventLess eventKeyLE
  by_cases h : b.time = a.time
  · simp only [h, ne_eq, not_true_eq_false, if_false, Bool.not_eq_true', decide_eq_false_iff_not,
      not_lt, true_and, lt_self_iff_false, false_or]
  · simp only [ne_eq, h, not_false_eq_true, if_true, Bool.not_eq_true', decide_eq_false_iff_not,
      not_lt]
    have h2 : a.time ≠ b.time := fun hc => h hc.symm
    constructor
    · intro hh
      left
      omega
    · intro hh
      rcases hh with hh | hh
      · omega
      · exact absurd hh.1 h2

lemma eventSortLE_trans (a b c : RuleEvent) (hab : eventSortLE a b = true)
    (hbc : eventSortLE b c = true) : eventSortLE a c = true := by
  rw [eventSortLE_iff] at *
  unfold eventKeyLE at *
  omega

lemma eventSortLE_total (a b : RuleEvent) : (eventSortLE a b || eventSortLE b a) = true := by
  rw [Bool.or_eq_true, eventSortLE_iff, eventSortLE_iff]
  unfold eventKeyLE
  omega

lemma takeWhile_eq_filter_of_sorted (p : RuleEvent → Bool)
    (hmono : ∀ a b : RuleEvent, eventSortLE a b = true → p b = true → p a = true) :
    ∀ l : List RuleEvent, List.Pairwise (fun a b => eventSortLE a b = true) l →
      l.takeWhile p = l.filter p ∧ l.dropWhile p = l.filter (fun e => !(p e)) := by
  intro l hl
  induction l with
  | nil => simp
  | cons a t ih =>
    rcases List.pairwise_cons.mp hl with ⟨ha, ht⟩
    rcases ih ht with ⟨ih1, ih2⟩
    by_cases hpa : p a = true
    · simp [List.takeWhile_cons, List.dropWhile_cons, hpa, ih1, ih2]
    · have hall : ∀ b ∈ t, p b = false := by
        intro b hb
        cases hpb : p b with
        | false => rfl
        | true => exact absurd (hmono a b (ha b hb) hpb) hpa
      have hfilter : t.filter p = [] := by
        apply List.filter_eq_nil_iff.mpr
        intro b hb
        simp [hall b hb]
      have hfilter2 : t.filter (fun e => !(p e)) = t := by
        apply List.filter_eq_self.mpr
        intro b hb
        simp [hall b hb]
      simp [List.takeWhile_cons, List.dropWhile_cons, hpa, hfilter, hfilter2]

/-- C1: for every queue of published events and every time `now`, `drain(now)`
returns exactly the events with time <= now, sorted ascending first by time
and then by event_number; the drained events are removed from the queue and
every event with time > now remains queued. -/
theorem drain_returns_due_events_sorted_and_keeps_rest (event_queue : List RuleEvent) (now : Int) :
    List.Sorted eventKeyLE (drain event_queue now).1 ∧
    List.Perm (drain event_queue now).1 (event_queue.filter fun e => decide (e.time ≤ now)) ∧
    List.Perm (drain event_queue now).2 (event_queue.filter fun e => decide (now < e.time)) := by
  have hsorted : List.Pairwise (fun a b => eventSortLE a b = true)
      (event_queue.mergeSort eventSortLE) :=
    List.sorted_mergeSort eventSortLE_trans eventSortLE_total event_queue
  have hperm : List.Perm (event_queue.mergeSort eventSortLE) event_queue :=
    List.mergeSort_perm event_queue eventSortLE
  have hmono : ∀ a b : RuleEvent, eventSortLE a b = true →
      (decide (b.time ≤ now)) = true → (decide (a.time ≤ now)) = true := by
    intro a b hab hb
    rw [eventSortLE_iff] at hab
    unfold eventKeyLE at hab
    rw [decide_eq_true_eq] at hb ⊢
    omega
  rcases takeWhile_eq_filter_of_sorted _ hmono _ hsorted with ⟨htake, hdrop⟩
  refine ⟨?_, ?_, ?_⟩
  · show List.Sorted eventKeyLE ((event_queue.mergeSort eventSortLE).takeWhile _)
    rw [htake]
    have hsub := List.Pairwise.sublist (List.filter_sublist (p := fun e => decide (e.time ≤ now))
      (l := event_queue.mergeSort eventSortLE)) hsorted
    exact hsub.imp fun h => (eventSortLE_iff _ _).mp h
  · show List.Perm ((event_queue.mergeSort eventSortLE).takeWhile _) _
    rw [htake]
    exact hperm.filter _
  · show List.Perm ((event_queue.mergeSort eventSortLE).dropWhile _) _
    rw [hdrop]
    have hcongr : (event_queue.mergeSort eventSortLE).filter (fun e => !(decide (e.time ≤ now))) =
        (event_queue.mergeSort eventSortLE).filter (fun e => decide (now < e.time)) := by
      apply List.filter_congr
      intro e _
      by_cases h : e.time ≤ now
      · have h2 : ¬ now < e.time := by omega
        simp [h, h2]
      · have h2 : now < e.time := by omega
        simp [h, h2]
    rw [hcongr]
    exact hperm.filter _

/-! ## C6 and C7: bus classification behavior -/

/-- C6: publishing a null raw message, or a message that matches neither the
built-in type table nor any registered translator (including a registered
translator that declines), enqueues exactly one event of kind UNKNOWN with
empty payload, and no error is raised (the translation is total). -/
theorem publish_unmatched_enqueues_one_unknown_event
    (translators : List (String × RuleEventTranslator)) (event_queue : List RuleEvent)
    (msg : Option CMessage) (now event_number : Int)
    (h : msg = none ∨
      ∃ m, msg = some m ∧ translateByType m now event_number = none ∧
        (lookupTranslator translators m.className = none ∨
         ∃ tr, lookupTranslator translators m.className = some tr ∧ tr m now event_number = none)) :
    ∃ e : RuleEvent,
      publish translators event_queue msg now event_number = event_queue ++ [e] ∧
      e.type = RuleEventKind.UNKNOWN ∧ e.payload = RuleEventPayload.monostate := by
  rcases h with h | ⟨m, hm, htrans, hlook⟩
  · subst h
    exact ⟨makeUnknownRuleEvent none now event_number, rfl, rfl, rfl⟩
  · subst hm
    refine ⟨makeUnknownRuleEvent (some m) now event_number, ?_, rfl, rfl⟩
    unfold publish toRuleEvent
    rcases hlook with hlook | ⟨tr, hlook, htr⟩
    · simp [htrans, hlook]
    · simp [htrans, hlook, htr]

/-- C6 witness: publishing a null message to the default bus enqueues one
UNKNOWN event with empty payload. -/
theorem publish_unmatched_enqueues_one_unknown_event_witness :
    ∃ e : RuleEvent,
      publish [] [] none 3 7 = [] ++ [e] ∧
      e.type = RuleEventKind.UNKNOWN ∧ e.payload = RuleEventPayload.monostate :=
  publish_unmatched_enqueues_one_unknown_event [] [] none 3 7 (Or.inl rfl)

/-- C7: for every PurificationResult message put through the bus, the produced
event's protocol family is Purification iff the message's integer protocol
hint lies in [0,10]; out of range the family is Unknown and
protocol_raw_value is the decimal string of the hint; in range
protocol_raw_value is empty. -/
theorem purification_result_protocol_hint_mapping
    (translators : List (String × RuleEventTranslator)) (msg : CMessage)
    (m : PurificationResult) (hbody : msg.body = CMessageBody.purificationResult m)
    (now event_number : Int) :
    ∃ e : RuleEvent,
      toRuleEvent translators (some msg) now event_number = e ∧
      e.type = RuleEventKind.PURIFICATION_RESULT ∧
      (e.protocol_spec = ProtocolType.Purification ↔ (0 ≤ m.protocol ∧ m.protocol ≤ 10)) ∧
      (0 ≤ m.protocol ∧ m.protocol ≤ 10 → e.protocol_raw_value = "") ∧
      (¬ (0 ≤ m.protocol ∧ m.protocol ≤ 10) →
        e.protocol_spec = ProtocolType.Unknown ∧ e.protocol_raw_value = toString m.protocol) := by
  obtain ⟨full_name, is_self_message, body⟩ := msg
  simp only at hbody
  subst hbody
  refine ⟨_, rfl, ?_, ?_, ?_, ?_⟩ <;>
    unfold toRuleEvent translateByType protocol_from_int makeRuleEvent <;>
    by_cases hrange : 0 ≤ m.protocol ∧ m.protocol ≤ 10 <;>
    simp [hrange]

/-- C7 witness: a PurificationResult with out-of-range hint 123 maps to
family Unknown with raw value "123". -/
theorem purification_result_protocol_hint_mapping_witness :
    ∃ e : RuleEvent,
      toRuleEvent [] (some ⟨"pur", false,
        CMessageBody.purificationResult ⟨1, 2, 3, 4, 123⟩⟩) 5 6 = e ∧
      e.type = RuleEventKind.PURIFICATION_RESULT ∧
      (e.protocol_spec = ProtocolType.Purification ↔
        (0 ≤ (123 : Int) ∧ (123 : Int) ≤ 10)) ∧
      (0 ≤ (123 : Int) ∧ (123 : Int) ≤ 10 → e.protocol_raw_value = "") ∧
      (¬ (0 ≤ (123 : Int) ∧ (123 : Int) ≤ 10) →
        e.protocol_spec = ProtocolType.Unknown ∧ e.protocol_raw_value = toString (123 : Int)) :=
  purification_result_protocol_hint_mapping [] _ ⟨1, 2, 3, 4, 123⟩ rfl 5 6

/-! ## RuleEngine state and handlers (src/quisp/modules/QRSA/RuleEngine/RuleEngine.cc) -/

/-- Embeds `QNIC_type` values used by the embedded handlers. -/
inductive QNICType where
  | QNIC_E
  | QNIC_R
  | QNIC_RP
deriving DecidableEq, Repr

/-- Embeds `RuleEngine::QubitInfo`: the (qubit_index, correction_operation)
entry of qubit_postprocess_info. -/
structure QubitInfo where
  qubit_index : Int
  correction_operation : PauliOperator
deriving DecidableEq, Repr

/-- Embeds `RuleEngine::MSMInfo`: per-interface MSM link state.  The std::map
members are modelled as association lists looked up by key, matching the
`find` / operator[] access pattern of the source. -/
structure MSMInfo where
  photon_index_counter : Int := 0
  iteration_index : Int := 0
  qubit_info_map : List (Int × Int) := []
  qubit_postprocess_info : List (Int × QubitInfo) := []
  partner_address : Int := 0
  partner_qnic_index : Int := 0
  epps_address : Int := 0
  total_travel_time : Int := 0
deriving DecidableEq, Repr

/-- State of RuleEngine read by the embedded handlers.  `msm_info_map` is a
std::map accessed only through operator[] (which default-constructs a missing
entry); since the source never observes presence of a key any other way, it
is modelled as a total function returning the default MSMInfo for untouched
interfaces. -/
structure EngineState where
  parentAddress : Int
  msm_info_map : Int → MSMInfo

/-- Side effects the embedded handlers perform, in program order:
realtime_controller calls, qnic_store mutations, and bell_pair_store
insertions.  A qubit record is identified by the (type, qnic_index,
qubit_index) triple passed to QNicStore::getQubitRecord. -/
inductive EngineAction where
  | reinitializeStationaryQubit (qnic_index qubit_index : Int) (qnic_type : QNICType)
  | setQubitBusy (qnic_type : QNICType) (qnic_index qubit_index : Int) (busy : Bool)
  | applyZGate (qnic_type : QNICType) (qnic_index qubit_index : Int)
  | insertEntangledQubit (partner_address : Int) (qnic_type : QNICType) (qnic_index qubit_index : Int)
deriving DecidableEq, Repr

/-- Embeds `RuleEngine::handleMSMResult` (RuleEngine.cc lines 290-318), whose
logic is byte-for-byte shared with
`RuleProtocolExecutionContext::handleMSMResult`
(RuleProtocolExecutionContext.cc lines 49-79).  Returns the (unchanged)
engine state and the list of side effects. -/
def handleMSMResult (st : EngineState) (msm_result : MSMResult) :
    EngineState × List EngineAction :=
  let qnic_index := msm_result.qnic_index
  let msm_info := st.msm_info_map qnic_index
  match msm_info.qubit_postprocess_info.lookup msm_result.photon_index with
  | none => (st, [])
  | some qubit_info =>
    let qubit_index := qubit_info.qubit_index
    if !msm_result.success then
      (st, [EngineAction.reinitializeStationaryQubit qnic_index qubit_index QNICType.QNIC_RP,
            EngineAction.setQubitBusy QNICType.QNIC_RP qnic_index qubit_index false])
    else
      let is_phi_minus := qubit_info.correction_operation ≠ msm_result.correction_operation
      let is_younger_address := st.parentAddress < msm_info.partner_address
      (st,
        (if is_phi_minus ∧ is_younger_address then
          [EngineAction.applyZGate QNICType.QNIC_RP qnic_index qubit_index]
        else []) ++
        [EngineAction.insertEntangledQubit msm_info.partner_address QNICType.QNIC_RP
          qnic_index qubit_index])

/-- C4: for every MSM_RESULT whose photon index is known locally and which
reports partner success, a Z gate is applied iff the local correction differs
from the partner's AND the local address is strictly smaller than the partner
address, and the local qubit is then inserted into the BellPairStore under
the partner's address. -/
theorem handleMSMResult_both_success_z_iff_tiebreak_then_insert
    (st : EngineState) (msm_result : MSMResult) (qubit_info : QubitInfo)
    (hfound : (st.msm_info_map msm_result.qnic_index).qubit_postprocess_info.lookup
      msm_result.photon_index = some qubit_info)
    (hsuccess : msm_result.success = true) :
    (handleMSMResult st msm_result).2 =
      (if qubit_info.correction_operation ≠ msm_result.correction_operation ∧
          st.parentAddress < (st.msm_info_map msm_result.qnic_index).partner_address then
        [EngineAction.applyZGate QNICType.QNIC_RP msm_result.qnic_index qubit_info.qubit_index]
      else []) ++
      [EngineAction.insertEntangledQubit
        (st.msm_info_map msm_result.qnic_index).partner_address QNICType.QNIC_RP
        msm_result.qnic_index qubit_info.qubit_index] ∧
    (EngineAction.applyZGate QNICType.QNIC_RP msm_result.qnic_index qubit_info.qubit_index ∈
        (handleMSMResult st msm_result).2 ↔
      (qubit_info.correction_operation ≠ msm_result.correction_operation ∧
        st.parentAddress < (st.msm_info_map msm_result.qnic_index).partner_address)) := by
  have hmain : (handleMSMResult st msm_result).2 =
      (if qubit_info.correction_operation ≠ msm_result.correction_operation ∧
          st.parentAddress < (st.msm_info_map msm_result.qnic_index).partner_address then
        [EngineAction.applyZGate QNICType.QNIC_RP msm_result.qnic_index qubit_info.qubit_index]
      else []) ++
      [EngineAction.insertEntangledQubit
        (st.msm_info_map msm_result.qnic_index).partner_address QNICType.QNIC_RP
        msm_result.qnic_index qubit_info.qubit_index] := by
    simp only [handleMSMResult, hfound]
    simp [hsuccess]
  refine ⟨hmain, ?_⟩
  rw [hmain]
  by_cases hcond : qubit_info.correction_operation ≠ msm_result.correction_operation ∧
      st.parentAddress < (st.msm_info_map msm_result.qnic_index).partner_address
  · simp [hcond]
  · simp [hcond]

/-- C4 witness: local node 2, partner 5, local correction X vs partner Z,
photon index 7 found: the Z gate is applied and the qubit inserted. -/
theorem handleMSMResult_both_success_z_iff_tiebreak_then_insert_witness :
    (handleMSMResult
      { parentAddress := 2
        msm_info_map := fun _ =>
          { qubit_postprocess_info := [(7, ⟨3, PauliOperator.X⟩)], partner_address := 5 } }
      { qnic_index := 1, qnic_type := 2, photon_index := 7, success := true,
        correction_operation := PauliOperator.Z, src_addr := 5, dest_addr := 2 }).2 =
      (if (PauliOperator.X ≠ PauliOperator.Z ∧ (2 : Int) < 5) then
        [EngineAction.applyZGate QNICType.QNIC_RP 1 3]
      else []) ++
      [EngineAction.insertEntangledQubit 5 QNICType.QNIC_RP 1 3] ∧
    (EngineAction.applyZGate QNICType.QNIC_RP 1 3 ∈
        (handleMSMResult
          { parentAddress := 2
            msm_info_map := fun _ =>
              { qubit_postprocess_info := [(7, ⟨3, PauliOperator.X⟩)], partner_address := 5 } }
          { qnic_index := 1, qnic_type := 2, photon_index := 7, success := true,
            correction_operation := PauliOperator.Z, src_addr := 5, dest_addr := 2 }).2 ↔
      (PauliOperator.X ≠ PauliOperator.Z ∧ (2 : Int) < 5)) :=
  handleMSMResult_both_success_z_iff_tiebreak_then_insert _ _ ⟨3, PauliOperator.X⟩ rfl rfl

/-- C9: an MSM_RESULT whose photon index is not in the local
qubit_postprocess_info is dropped: no backend call, no store mutation, no
state change. -/
theorem handleMSMResult_unknown_photon_index_is_noop
    (st : EngineState) (msm_result : MSMResult)
    (habsent : (st.msm_info_map msm_result.qnic_index).qubit_postprocess_info.lookup
      msm_result.photon_index = none) :
    handleMSMResult st msm_result = (st, []) := by
  simp only [handleMSMResult, habsent]

/-- C9 witness: with empty local post-processing state every MSM_RESULT is
dropped without any action. -/
theorem handleMSMResult_unknown_photon_index_is_noop_witness :
    handleMSMResult
      { parentAddress := 2, msm_info_map := fun _ => {} }
      { qnic_index := 1, qnic_type := 2, photon_index := 7, success := true,
        correction_operation := PauliOperator.Z, src_addr := 5, dest_addr := 2 } =
      ({ parentAddress := 2, msm_info_map := fun _ => {} }, []) :=
  handleMSMResult_unknown_photon_index_is_noop _ _ rfl

/-! ## RuleEngine::handleRuleEvent dispatch and handleMessage keep logic -/

/-- Runtime facade calls made by event dispatch (RuntimeFacade surface used
by RuleEngine.cc: submitRuleSet and assignMessageToRuleSet). -/
inductive RuntimeCall where
  | submitRuleSet (serialized_ruleset : String)
  | assignMessageToRuleSet (ruleset_id shared_rule_tag : Int) (message_content : List Int)
deriving DecidableEq, Repr

/-- Embeds the dispatch of `RuleEngine::handleRuleEvent` (RuleEngine.cc lines
103-226): its Bool return value (the keep_message contribution of the event),
the `error("This application is not recognized yet")` raised on a nonzero
application_type (modelled as Except.error, like the bad_variant_access
std::get raises when the payload does not match the case), and the
runtime-facade calls the case makes.  Hardware and store side effects of the
entanglement cases are embedded separately (handleMSMResult above); they do
not influence the return value, which every case produces with a literal
`return`. -/
def handleRuleEventDispatch (event : RuleEvent) : Except String (Bool × List RuntimeCall) :=
  match event.type, event.payload with
  | RuleEventKind.BSM_RESULT, RuleEventPayload.combinedBSAresults _ => Except.ok (false, [])
  | RuleEventKind.BSM_TIMING, RuleEventPayload.bsmTimingNotification _ => Except.ok (false, [])
  | RuleEventKind.EMIT_PHOTON_REQUEST, RuleEventPayload.emitPhotonRequest _ =>
      Except.ok (true, [])
  | RuleEventKind.EPPS_TIMING, RuleEventPayload.eppsTimingNotification _ => Except.ok (false, [])
  | RuleEventKind.SINGLE_CLICK_RESULT, RuleEventPayload.singleClickResult _ =>
      Except.ok (false, [])
  | RuleEventKind.MSM_RESULT, RuleEventPayload.msmResult _ => Except.ok (false, [])
  | RuleEventKind.LINK_TOMOGRAPHY_RULESET, RuleEventPayload.linkTomographyRuleSet m =>
      Except.ok (false, [RuntimeCall.submitRuleSet m.ruleset])
  | RuleEventKind.PURIFICATION_RESULT, RuleEventPayload.purificationResult m =>
      Except.ok (false, [RuntimeCall.assignMessageToRuleSet m.ruleset_id m.shared_rule_tag
        [m.sequence_number, m.measurement_result, m.protocol]])
  | RuleEventKind.SWAPPING_RESULT, RuleEventPayload.swappingResult m =>
      Except.ok (false, [RuntimeCall.assignMessageToRuleSet m.ruleset_id m.shared_rule_tag
        [m.sequence_number, m.correction_frame, m.new_partner]])
  | RuleEventKind.RULESET_FORWARDING, RuleEventPayload.internalRuleSetForwarding m =>
      Except.ok (false, [RuntimeCall.submitRuleSet m.ruleset])
  | RuleEventKind.RULESET_FORWARDING_APPLICATION,
      RuleEventPayload.internalRuleSetForwardingApplication m =>
      if m.application_type ≠ 0 then Except.error "This application is not recognized yet"
      else Except.ok (false, [RuntimeCall.submitRuleSet m.ruleset])
  | RuleEventKind.STOP_EMITTING, RuleEventPayload.stopEmitting _ => Except.ok (false, [])
  | RuleEventKind.UNKNOWN, _ => Except.ok (false, [])
  | _, _ => Except.error "bad_variant_access"

/-- Embeds the keep_message accumulation loop of `RuleEngine::handleMessage`
(RuleEngine.cc lines 82-85): `keep_message = keep_message || handleRuleEvent(event)`
over the drained events; the built-in || short-circuits, so once keep_message
is true later events are no longer dispatched, and a raised error escapes the
loop. -/
def handleMessageKeepAux : Bool → List RuleEvent → Except String Bool
  | keep, [] => Except.ok keep
  | keep, event :: rest =>
    if keep then handleMessageKeepAux true rest
    else
      match handleRuleEventDispatch event with
      | Except.error e => Except.error e
      | Except.ok (k, _) => handleMessageKeepAux k rest

/-- keep_message at the end of one `RuleEngine::handleMessage` call whose
drain returned `events`. -/
def handleMessageKeep (events : List RuleEvent) : Except String Bool :=
  handleMessageKeepAux false events

/-- Embeds the release decision at the end of `RuleEngine::handleMessage`
(RuleEngine.cc lines 98-100): the raw message is deleted iff keep_message
stayed false; when an error escapes, the delete statement is never reached. -/
def messageReleased (events : List RuleEvent) : Except String Bool :=
  (handleMessageKeep events).map (fun keep => !keep)

/-- The drained event used to refute C5 as stated: an internal-timer
STOP_EMITTING event (keep_source is true for every internal-timer event the
bus produces). -/
def internalTimerStopEmittingEvent : RuleEvent :=
  { type := RuleEventKind.STOP_EMITTING
    channel := RuleEventChannel.INTERNAL_TIMER
    keep_source := true
    time := 1
    event_number := 4
    protocol_spec := ProtocolType.MSM_v1
    execution_path := ExecutionPath.EntanglementLifecycle
    payload := RuleEventPayload.stopEmitting ⟨0⟩ }

/-- C5 counterexample: a drained internal-timer STOP_EMITTING event with
keep_source set does NOT set keep_message (its handler case returns false),
and the raw message is released, contradicting the claim that keep_message
is set iff the channel is INTERNAL_TIMER or keep_source is true. -/
theorem keep_message_not_set_by_internal_timer_stop_emitting :
    internalTimerStopEmittingEvent.channel = RuleEventChannel.INTERNAL_TIMER ∧
    internalTimerStopEmittingEvent.keep_source = true ∧
    handleMessageKeep [internalTimerStopEmittingEvent] = Except.ok false ∧
    messageReleased [internalTimerStopEmittingEvent] = Except.ok true :=
  ⟨rfl, rfl, rfl, rfl⟩

lemma dispatch_ok_keep_eq_emit (event : RuleEvent)
    (h : (handleRuleEventDispatch event).isOk = true) :
    ∃ calls, handleRuleEventDispatch event =
      Except.ok (decide (event.type = RuleEventKind.EMIT_PHOTON_REQUEST), calls) := by
  obtain ⟨ty, ch, ks, t, en, ps, ep, raw, pl, mn, mt⟩ := event
  cases ty <;> cases pl <;>
    simp only [handleRuleEventDispatch, Except.isOk, Except.toBool] at h ⊢ <;>
    first
    | exact ⟨_, rfl⟩
    | (rename_i m
       by_cases happ : m.application_type ≠ 0
       · rw [if_pos happ] at h
         cases h
       · rw [if_neg happ]
         exact ⟨_, rfl⟩)
    | cases h

lemma handleMessageKeepAux_ok_eq_any (events : List RuleEvent)
    (h : ∀ e ∈ events, (handleRuleEventDispatch e).isOk = true) :
    ∀ keep : Bool, handleMessageKeepAux keep events =
      Except.ok (keep || events.any fun e => decide (e.type = RuleEventKind.EMIT_PHOTON_REQUEST)) := by
  induction events with
  | nil => intro keep; simp [handleMessageKeepAux]
  | cons a t ih =>
    intro keep
    have ha := h a (List.mem_cons_self a t)
    have ht : ∀ e ∈ t, (handleRuleEventDispatch e).isOk = true :=
      fun e he => h e (List.mem_cons_of_mem a he)
    rcases dispatch_ok_keep_eq_emit a ha with ⟨calls, hd⟩
    cases keep with
    | true =>
      simp only [handleMessageKeepAux, if_true]
      rw [ih ht true]
      simp
    | false =>
      simp only [handleMessageKeepAux, if_false, hd]
      rw [List.any_cons, Bool.false_or]
      exact ih ht _

/-- C5 (amended): for every drained event list on which no dispatch raises,
the keep_message bit is set iff some drained event has kind
EMIT_PHOTON_REQUEST (the only case of RuleEngine::handleRuleEvent returning
keep = true), and the raw message is released at the end of handleMessage
iff keep_message was never set. -/
theorem handleMessage_keep_iff_emit_photon_event (events : List RuleEvent)
    (h : ∀ e ∈ events, (handleRuleEventDispatch e).isOk = true) :
    handleMessageKeep events =
      Except.ok (events.any fun e => decide (e.type = RuleEventKind.EMIT_PHOTON_REQUEST)) ∧
    messageReleased events =
      Except.ok (!(events.any fun e => decide (e.type = RuleEventKind.EMIT_PHOTON_REQUEST))) := by
  have hkeep := handleMessageKeepAux_ok_eq_any events h false
  rw [Bool.false_or] at hkeep
  refine ⟨hkeep, ?_⟩
  unfold messageReleased handleMessageKeep
  rw [hkeep]
  rfl

/-- C5 (amended) witness: one internal-timer STOP_EMITTING event keeps
nothing and the message is released. -/
theorem handleMessage_keep_iff_emit_photon_event_witness :
    handleMessageKeep [internalTimerStopEmittingEvent] =
      Except.ok ([internalTimerStopEmittingEvent].any fun e =>
        decide (e.type = RuleEventKind.EMIT_PHOTON_REQUEST)) ∧
    messageReleased [internalTimerStopEmittingEvent] =
      Except.ok (!([internalTimerStopEmittingEvent].any fun e =>
        decide (e.type = RuleEventKind.EMIT_PHOTON_REQUEST))) :=
  handleMessage_keep_iff_emit_photon_event [internalTimerStopEmittingEvent]
    (by intro e he; simp at he; subst he; rfl)

/-- Embeds `RuleProtocolExecutionContext::handleRuleSetForwardingApplication`
(RuleProtocolExecutionContext.cc lines 147-156), identical in behavior to the
registrar handler for RULESET_FORWARDING_APPLICATION
(RuleProtocolHandlerRegistrar.cc): a nonzero application_type is ignored;
otherwise the deserialized RuleSet is submitted. -/
def handleRuleSetForwardingApplication (pkt : InternalRuleSetForwarding_Application) :
    List RuntimeCall :=
  if pkt.application_type ≠ 0 then []
  else [RuntimeCall.submitRuleSet pkt.ruleset]

/-- C3: at the failing input (application_type = 999, as in RuleEngine_test.cc
ruleSetForwardingApplicationEventWithUnknownApplicationTypeIsLogged, which
expects no throw), the execution-context / registrar handler ignores the
event — no RuleSet submitted, no error — as the claim states, while the
switch-based RuleEngine::handleRuleEvent (RuleEngine.cc line 212) raises
error("This application is not recognized yet"): the code contradicts its
own tests there. -/
theorem ruleset_forwarding_application_nonzero_ignored_but_switch_raises :
    handleRuleSetForwardingApplication ⟨1, "rs", 999⟩ = [] ∧
    handleRuleEventDispatch
      { type := RuleEventKind.RULESET_FORWARDING_APPLICATION
        payload := RuleEventPayload.internalRuleSetForwardingApplication ⟨1, "rs", 999⟩ } =
      Except.error "This application is not recognized yet" :=
  ⟨rfl, rfl⟩

/-! ## Physical backend surface (src/quisp/modules/Backend) -/

/-- Embeds `struct QubitHandle` (IPhysicalBackend.h lines 29-34). -/
structure QubitHandle where
  node_id : Int
  qnic_index : Int
  qnic_type : Int
  qubit_index : Int
deriving DecidableEq, Repr

/-- Embeds `struct BackendContext` (IPhysicalBackend.h lines 22-27). -/
structure BackendContext where
  seed : Nat := 0
  now : Int := 0
  scenario_id : String := ""
  backend_name : String := ""
deriving DecidableEq, Repr

/-- Embeds `enum class MeasureBasis` (IPhysicalBackend.h line 36). -/
inductive MeasureBasis where
  | Z
  | X
  | Y
  | Bell
deriving DecidableEq, Repr

/-- Embeds `struct OperationResult` (IPhysicalBackend.h lines 38-46) with its
member defaults; fidelity_estimate, a C++ double that this code only carries
around, is modelled as a rational. -/
structure OperationResult where
  success : Bool := false
  fidelity_estimate : Rat := 1
  qubit_lost : Bool := false
  relaxed_to_ground : Bool := false
  excited_to_plus : Bool := false
  measured_plus : Bool := false
  message : String := ""
deriving DecidableEq, Repr

/-- Side effect of ErrorBasisBackend::applyGate on the underlying
backends::IQubit object (the gateX() ... gateCNOT() calls); resolved qubit
objects are identified by a numeric id. -/
inductive GateEffect where
  | gateX (target : Nat)
  | gateY (target : Nat)
  | gateZ (target : Nat)
  | gateH (target : Nat)
  | gateS (target : Nat)
  | gateSdg (target : Nat)
  | gateCNOT (source target : Nat)
deriving DecidableEq, Repr

/-- Embeds `ErrorBasisBackend::applyGate` (ErrorBasisBackend.cc lines 26-78).
`resolve` embeds resolveQubit (none for an unresolvable handle); the
backend-null guard (a programmer error throw) is outside this logic.
Returns the OperationResult and the gate calls made on resolved qubits. -/
def applyGate (resolve : QubitHandle → Option Nat) (gate : String)
    (qubits : List QubitHandle) : OperationResult × List GateEffect :=
  match qubits with
  | [] => ({ success := false }, [])
  | q0 :: rest =>
    if gate == "X" || gate == "x" then
      match resolve q0 with
      | none => ({ success := false }, [])
      | some target => ({ success := true }, [GateEffect.gateX target])
    else if gate == "Y" || gate == "y" then
      match resolve q0 with
      | none => ({ success := false }, [])
      | some target => ({ success := true }, [GateEffect.gateY target])
    else if gate == "Z" || gate == "z" then
      match resolve q0 with
      | none => ({ success := false }, [])
      | some target => ({ success := true }, [GateEffect.gateZ target])
    else if gate == "H" || gate == "h" then
      match resolve q0 with
      | none => ({ success := false }, [])
      | some target => ({ success := true }, [GateEffect.gateH target])
    else if gate == "S" || gate == "s" then
      match resolve q0 with
      | none => ({ success := false }, [])
      | some target => ({ success := true }, [GateEffect.gateS target])
    else if gate == "Sdg" || gate == "sdg" || gate == "S_dg" then
      match resolve q0 with
      | none => ({ success := false }, [])
      | some target => ({ success := true }, [GateEffect.gateSdg target])
    else if gate == "CNOT" || gate == "cnot" then
      match rest with
      | [] => ({ success := false }, [])
      | q1 :: _ =>
        match resolve q0, resolve q1 with
        | some src, some dst => ({ success := true }, [GateEffect.gateCNOT src dst])
        | _, _ => ({ success := false }, [])
    else ({ success := false }, [])

/-- C8 counterexample: the letter-case variant "Cnot" of the recognized gate
name "CNOT" is rejected by ErrorBasisBackend::applyGate (failure result, no
side effect) while "CNOT" succeeds on the same qubits, so gate names are not
normalized case-insensitively. -/
theorem apply_gate_mixed_case_variant_rejected :
    applyGate (fun handle => some handle.qubit_index.toNat) "Cnot"
      [⟨1, 0, 0, 0⟩, ⟨1, 0, 0, 1⟩] = ({ success := false }, []) ∧
    applyGate (fun handle => some handle.qubit_index.toNat) "CNOT"
      [⟨1, 0, 0, 0⟩, ⟨1, 0, 0, 1⟩] = ({ success := true }, [GateEffect.gateCNOT 0 1]) :=
  ⟨rfl, rfl⟩

/-- C8 (amended): the spellings ErrorBasisBackend::applyGate accepts for each
recognized gate are exactly the canonical name and its all-lowercase form
(plus "S_dg" for Sdg); within a gate's accepted spellings the call behaves
identically — same result and same side effect on the underlying qubits. -/
theorem apply_gate_accepted_spellings_agree (resolve : QubitHandle → Option Nat)
    (qubits : List QubitHandle) :
    applyGate resolve "x" qubits = applyGate resolve "X" qubits ∧
    applyGate resolve "y" qubits = applyGate resolve "Y" qubits ∧
    applyGate resolve "z" qubits = applyGate resolve "Z" qubits ∧
    applyGate resolve "h" qubits = applyGate resolve "H" qubits ∧
    applyGate resolve "s" qubits = applyGate resolve "S" qubits ∧
    applyGate resolve "sdg" qubits = applyGate resolve "Sdg" qubits ∧
    applyGate resolve "S_dg" qubits = applyGate resolve "Sdg" qubits ∧
    applyGate resolve "cnot" qubits = applyGate resolve "CNOT" qubits := by
  cases qubits with
  | nil => exact ⟨rfl, rfl, rfl, rfl, rfl, rfl, rfl, rfl⟩
  | cons q0 rest => exact ⟨rfl, rfl, rfl, rfl, rfl, rfl, rfl, rfl⟩

/-- Embeds `QutipBackend::measureNoiseless` (QutipBackend.cc lines 654-663).
`runMeasurement` abstracts the worker-process measurement call
(`runMeasurement(ctx, qubit, basis, true)` — note the noiseless flag is
always true here); the backend-null guard (a programmer error throw) is
outside this logic. -/
def measureNoiseless
    (runMeasurement : BackendContext → QubitHandle → MeasureBasis → Bool → OperationResult)
    (ctx : BackendContext) (qubit : QubitHandle) (basis : MeasureBasis)
    (forced_plus : Bool) : OperationResult :=
  let result := runMeasurement ctx qubit basis true
  if forced_plus && result.success then { result with measured_plus := true }
  else result

/-- C10: with forced_plus and a successful worker measurement, the returned
OperationResult has measured_plus forced to true (all other fields are the
worker's); with forced_plus false, or on a failed measurement, the worker
result is returned unmodified. -/
theorem measureNoiseless_forces_plus_only_on_success
    (runMeasurement : BackendContext → QubitHandle → MeasureBasis → Bool → OperationResult)
    (ctx : BackendContext) (qubit : QubitHandle) (basis : MeasureBasis)
    (forced_plus : Bool) :
    (forced_plus = true → (runMeasurement ctx qubit basis true).success = true →
      measureNoiseless runMeasurement ctx qubit basis forced_plus =
        { runMeasurement ctx qubit basis true with measured_plus := true }) ∧
    (forced_plus = false →
      measureNoiseless runMeasurement ctx qubit basis forced_plus =
        runMeasurement ctx qubit basis true) ∧
    ((runMeasurement ctx qubit basis true).success = false →
      measureNoiseless runMeasurement ctx qubit basis forced_plus =
        runMeasurement ctx qubit basis true) := by
  refine ⟨?_, ?_, ?_⟩
  · intro hf hs
    unfold measureNoiseless
    simp [hf, hs]
  · intro hf
    unfold measureNoiseless
    simp [hf]
  · intro hs
    unfold measureNoiseless
    simp [hs]

/-- C10 witness: a constantly-successful worker with measured_plus false,
forced_plus true: the returned result has measured_plus true. -/
theorem measureNoiseless_forces_plus_only_on_success_witness :
    measureNoiseless (fun _ _ _ _ => { success := true }) {} ⟨0, 0, 0, 0⟩
      MeasureBasis.Z true = { success := true, measured_plus := true } := by
  have h := (measureNoiseless_forces_plus_only_on_success
    (fun _ _ _ _ => { success := true }) {} ⟨0, 0, 0, 0⟩ MeasureBasis.Z true).1 rfl rfl
  simpa using h

/-! ## ConnectionManager response deduplication
(src/quisp/modules/QRSA/ConnectionManager) -/

/-- Embeds messages::ConnectionSetupResponse (the fields deduplication
reads). -/
structure ConnectionSetupResponse where
  connection_session_id : Int
  connection_attempt : Int
  ruleset_id : Int
deriving DecidableEq, Repr

/-- Embeds `ConnectionManager::ConnectionSetupResponseState`
(ConnectionManager.h lines 81-84) with its member defaults. -/
structure ConnectionSetupResponseState where
  latest_attempt : Int := -1
  accepted_for_latest_attempt : Bool := false
deriving DecidableEq, Repr

/-- Condition under which a response is strictly newer than the recorded
(latest_attempt, accepted_for_latest_attempt) pair of its session. -/
def responseStrictlyNewer (state : Int → ConnectionSetupResponseState)
    (resp : ConnectionSetupResponse) : Prop :=
  (state resp.connection_session_id).latest_attempt < resp.connection_attempt ∨
  (resp.connection_attempt = (state resp.connection_session_id).latest_attempt ∧
    (state resp.connection_session_id).accepted_for_latest_attempt = false)

instance (state : Int → ConnectionSetupResponseState) (resp : ConnectionSetupResponse) :
    Decidable (responseStrictlyNewer state resp) := by
  unfold responseStrictlyNewer
  infer_instance

/-- Modelled from the spec: ConnectionManager.cc — the definitions of
`shouldAcceptConnectionSetupResponse` / `isLegacyConnectionSessionResponse`
and the storeRuleSet forwarding path — is missing from the source tree; only
ConnectionManager.h (state shape) and ConnectionManager_test.cc are present.
Per the spec (§4.7, Deduplication of responses): accept iff the response's
(session_id, attempt) is strictly newer than the recorded
(latest_attempt, accepted_for_latest) pair for the session; legacy responses
with session_id == 0 bypass deduplication and are always accepted; on
acceptance the session record advances.  The per-session table (an
unordered_map read through operator[] with default-constructed entries) is a
total function.  Returns the accept decision and the updated table. -/
def shouldAcceptConnectionSetupResponse (state : Int → ConnectionSetupResponseState)
    (resp : ConnectionSetupResponse) : Bool × (Int → ConnectionSetupResponseState) :=
  if resp.connection_session_id = 0 then (true, state)
  else if responseStrictlyNewer state resp then
    (true,
      fun session =>
        if session = resp.connection_session_id then
          { latest_attempt := resp.connection_attempt, accepted_for_latest_attempt := true }
        else state session)
  else (false, state)

/-- Accept decisions for a sequence of responses processed in order. -/
def processResponses (state : Int → ConnectionSetupResponseState) :
    List ConnectionSetupResponse → List Bool
  | [] => []
  | resp :: rest =>
    let step := shouldAcceptConnectionSetupResponse state resp
    step.1 :: processResponses step.2 rest

/-- The fresh deduplication table of a node. -/
def initialResponseState : Int → ConnectionSetupResponseState := fun _ => {}

/-- Predicate on (response, accepted) pairs: an accepted forwarding for the
session/attempt pair (s, a). -/
def acceptedForPair (s a : Int) (p : ConnectionSetupResponse × Bool) : Bool :=
  decide (p.1.connection_session_id = s) && decide (p.1.connection_attempt = a) && p.2

lemma shouldAccept_session_zero (state : Int → ConnectionSetupResponseState)
    (resp : ConnectionSetupResponse) (h : resp.connection_session_id = 0) :
    shouldAcceptConnectionSetupResponse state resp = (true, state) := by
  unfold shouldAcceptConnectionSetupResponse
  rw [if_pos h]

lemma shouldAccept_newer (state : Int → ConnectionSetupResponseState)
    (resp : ConnectionSetupResponse) (h0 : resp.connection_session_id ≠ 0)
    (hc : responseStrictlyNewer state resp) :
    shouldAcceptConnectionSetupResponse state resp =
      (true,
        fun session =>
          if session = resp.connection_session_id then
            { latest_attempt := resp.connection_attempt, accepted_for_latest_attempt := true }
          else state session) := by
  unfold shouldAcceptConnectionSetupResponse
  rw [if_neg h0, if_pos hc]

lemma shouldAccept_stale (state : Int → ConnectionSetupResponseState)
    (resp : ConnectionSetupResponse) (h0 : resp.connection_session_id ≠ 0)
    (hc : ¬ responseStrictlyNewer state resp) :
    shouldAcceptConnectionSetupResponse state resp = (false, state) := by
  unfold shouldAcceptConnectionSetupResponse
  rw [if_neg h0, if_neg hc]

lemma processResponses_cons (state : Int → ConnectionSetupResponseState)
    (resp : ConnectionSetupResponse) (rest : List ConnectionSetupResponse) :
    processResponses state (resp :: rest) =
      (shouldAcceptConnectionSetupResponse state resp).1 ::
        processResponses (shouldAcceptConnectionSetupResponse state resp).2 rest := rfl

lemma dedup_count_aux (s a : Int) (hs : s ≠ 0) :
    ∀ (rs : List ConnectionSetupResponse) (state : Int → ConnectionSetupResponseState),
      ((a ≤ (state s).latest_attempt ∧
          ((state s).latest_attempt = a → (state s).accepted_for_latest_attempt = true)) →
        (rs.zip (processResponses state rs)).countP (acceptedForPair s a) = 0) ∧
      (rs.zip (processResponses state rs)).countP (acceptedForPair s a) ≤ 1 := by
  intro rs
  induction rs with
  | nil =>
    intro state
    simp [processResponses]
  | cons r rest ih =>
    intro state
    by_cases h0 : r.connection_session_id = 0
    · rw [processResponses_cons, shouldAccept_session_zero state r h0]
      have hpred : acceptedForPair s a (r, true) = false := by
        unfold acceptedForPair
        have : r.connection_session_id ≠ s := by rw [h0]; exact fun hc => hs hc.symm
        simp [this]
      rw [List.zip_cons_cons, List.countP_cons, hpred]
      simpa using ih state
    · by_cases hc : responseStrictlyNewer state r
      · rw [processResponses_cons, shouldAccept_newer state r h0 hc]
        set state2 : Int → ConnectionSetupResponseState :=
          fun session =>
            if session = r.connection_session_id then
              { latest_attempt := r.connection_attempt, accepted_for_latest_attempt := true }
            else state session with hstate2
        rw [List.zip_cons_cons, List.countP_cons]
        by_cases hpair : r.connection_session_id = s ∧ r.connection_attempt = a
        · have hpred : acceptedForPair s a (r, true) = true := by
            unfold acceptedForPair
            simp [hpair.1, hpair.2]
          have hstate2s : state2 s = { latest_attempt := a, accepted_for_latest_attempt := true } := by
            rw [hstate2]
            simp only []
            rw [if_pos hpair.1.symm, hpair.2]
          have hzero : (rest.zip (processResponses state2 rest)).countP (acceptedForPair s a) = 0 := by
            apply (ih state2).1
            rw [hstate2s]
            exact ⟨le_refl a, fun _ => rfl⟩
          constructor
          · intro hinv
            exfalso
            unfold responseStrictlyNewer at hc
            rw [hpair.1, hpair.2] at hc
            rcases hinv with ⟨hle, hacc⟩
            rcases hc with hlt | ⟨heq, hfalse⟩
            · omega
            · rw [hacc heq.symm] at hfalse
              cases hfalse
          · rw [hzero, hpred]
            simp
        · have hpred : acceptedForPair s a (r, true) = false := by
            unfold acceptedForPair
            rcases not_and_or.mp hpair with hne | hne <;> simp [hne]
          rw [hpred]
          have hinv2 : ∀ hinv : a ≤ (state s).latest_attempt ∧
              ((state s).latest_attempt = a → (state s).accepted_for_latest_attempt = true),
              a ≤ (state2 s).latest_attempt ∧
              ((state2 s).latest_attempt = a → (state2 s).accepted_for_latest_attempt = true) := by
            intro hinv
            rw [hstate2]
            simp only []
            by_cases hseq : s = r.connection_session_id
            · rw [if_pos hseq]
              have hlatest : (state s).latest_attempt ≤ r.connection_attempt := by
                unfold responseStrictlyNewer at hc
                rw [← hseq] at hc
                rcases hc with hlt | ⟨heq, _⟩
                · omega
                · omega
              exact ⟨by simpa using le_trans hinv.1 hlatest, fun _ => rfl⟩
            · rw [if_neg hseq]
              exact hinv
          constructor
          · intro hinv
            simpa using (ih state2).1 (hinv2 hinv)
          · simpa using (ih state2).2
      · rw [processResponses_cons, shouldAccept_stale state r h0 hc]
        have hpred : acceptedForPair s a (r, false) = false := by
          unfold acceptedForPair
          simp
        rw [List.zip_cons_cons, List.countP_cons, hpred]
        simpa using ih state

lemma processResponses_session_zero_accepted :
    ∀ (rs : List ConnectionSetupResponse) (state : Int → ConnectionSetupResponseState)
      (p : ConnectionSetupResponse × Bool),
      p ∈ rs.zip (processResponses state rs) → p.1.connection_session_id = 0 → p.2 = true := by
  intro rs
  induction rs with
  | nil =>
    intro state p hp
    simp [processResponses] at hp
  | cons r rest ih =>
    intro state p hp h0
    rw [processResponses_cons, List.zip_cons_cons] at hp
    rcases List.mem_cons.mp hp with hhead | htail
    · subst hhead
      simp only at h0 ⊢
      rw [shouldAccept_session_zero state r h0]
    · exact ih _ p htail h0

/-- C2: processed in order, a ConnectionSetupResponse is accepted iff it is
legacy (session_id == 0) or its (session_id, attempt) is strictly newer than
the session's recorded (latest_attempt, accepted_for_latest) state — so the
first response of a session with a fresh attempt is accepted, duplicates of
an accepted (session, attempt) and older attempts are rejected — legacy
responses always pass, and for every nonzero session at most one response
per (session_id, attempt) is ever accepted (hence forwarded). -/
theorem connection_setup_response_dedup (rs : List ConnectionSetupResponse)
    (s a : Int) (hs : s ≠ 0) :
    (∀ (state : Int → ConnectionSetupResponseState) (resp : ConnectionSetupResponse),
      (shouldAcceptConnectionSetupResponse state resp).1 = true ↔
        (resp.connection_session_id = 0 ∨
          (state resp.connection_session_id).latest_attempt < resp.connection_attempt ∨
          (resp.connection_attempt = (state resp.connection_session_id).latest_attempt ∧
            (state resp.connection_session_id).accepted_for_latest_attempt = false))) ∧
    (∀ p ∈ rs.zip (processResponses initialResponseState rs),
      p.1.connection_session_id = 0 → p.2 = true) ∧
    (rs.zip (processResponses initialResponseState rs)).countP (acceptedForPair s a) ≤ 1 := by
  refine ⟨?_, ?_, ?_⟩
  · intro state resp
    by_cases h0 : resp.connection_session_id = 0
    · rw [shouldAccept_session_zero state resp h0]
      simp [h0]
    · by_cases hc : responseStrictlyNewer state resp
      · rw [shouldAccept_newer state resp h0 hc]
        unfold responseStrictlyNewer at hc
        simp [h0, hc]
      · rw [shouldAccept_stale state resp h0 hc]
        unfold responseStrictlyNewer at hc
        simp only [Bool.false_eq_true, false_iff]
        intro hcontra
        rcases hcontra with hzero | hrest
        · exact h0 hzero
        · exact hc hrest
  · exact fun p hp => processResponses_session_zero_accepted rs initialResponseState p hp
  · exact (dedup_count_aux s a hs rs initialResponseState).2

/-- C2 witness: the spec's scenario S4 prefix — responses
(session 100, attempt 1), (100, 1), (100, 2), (100, 2), (100, 0), (101, 1):
only the first, third and last are accepted; at most one acceptance for
(100, 1). -/
theorem connection_setup_response_dedup_witness :
    processResponses initialResponseState
      [⟨100, 1, 11⟩, ⟨100, 1, 12⟩, ⟨100, 2, 13⟩, ⟨100, 2, 14⟩, ⟨100, 0, 15⟩, ⟨101, 1, 21⟩] =
      [true, false, true, false, false, true] ∧
    ([⟨100, 1, 11⟩, ⟨100, 1, 12⟩, ⟨100, 2, 13⟩, ⟨100, 2, 14⟩, ⟨100, 0, 15⟩,
        (⟨101, 1, 21⟩ : ConnectionSetupResponse)].zip
      (processResponses initialResponseState
        [⟨100, 1, 11⟩, ⟨100, 1, 12⟩, ⟨100, 2, 13⟩, ⟨100, 2, 14⟩, ⟨100, 0, 15⟩,
          ⟨101, 1, 21⟩])).countP (acceptedForPair 100 1) ≤ 1 := by
  constructor
  · rfl
  · exact (connection_setup_response_dedup _ 100 1 (by norm_num)).2.2

end QuispSpec
